import Mathlib

/-!
Verification of the nurse matching and offer-lifecycle subsystem of the
Patient booking application.

The definitions below are a shallow embedding of the client-side matching
code (`src/lib/matching-service.ts`), the shared data model
(`src/types/service-request.ts`) and the request-observation handler of the
patient UI (`src/components/find-nurse.tsx`).

Modelling conventions:
  - JavaScript numbers are modelled as rationals (`ℚ`); timestamps as integer
    milliseconds (`ℤ`).  `Math.round` agrees with Mathlib's `round`
    (round half towards positive infinity).
  - The geolib great-circle distance is a floating-point computation in an
    external library; it is abstracted as an explicit function parameter
    `dist : Coord → Coord → ℚ` of every definition that consumes it.
  - Optional record fields accessed with `?.` are modelled with `Option`;
    the JavaScript `x || d` default (which also replaces `0` / `""`) is
    modelled by `orDefault`.
  - Firestore `arrayUnion` / `arrayRemove` are modelled on `List String`
    with their documented semantics (add-if-absent at the end, remove all
    occurrences).
  - Fields of the TypeScript interfaces that the embedded functions never
    read (contact data, license data, schedules, review, ...) are omitted.
-/

namespace PatientApp

/-- A latitude/longitude pair (`{ latitude, longitude }` in the source). -/
structure Coord where
  latitude : ℚ
  longitude : ℚ
deriving DecidableEq, Repr

/-- Patient price preference (`preferences.priceRange`). -/
structure PriceRange where
  min : ℚ
  max : ℚ
deriving DecidableEq, Repr

/-- Patient matching preferences (`Patient.preferences`). -/
structure Preferences where
  maxDistance : ℚ
  priceRange : PriceRange
  preferredSpecialties : List String
deriving DecidableEq, Repr

/-- The patient fields read by the matching code. -/
structure Patient where
  id : String
  name : String
  preferences : Option Preferences
deriving DecidableEq, Repr

/-- A per-specialty rate entry (`Nurse.rates.specialties[i]`). -/
structure Specialty where
  name : String
  rate : ℚ
deriving DecidableEq, Repr

/-- `Nurse.rates`.  The matching code accesses it with `nurse.rates?.`,
so a stored record may lack it; hence the enclosing `Option` in `Nurse`. -/
structure Rates where
  hourlyRate : ℚ
  specialties : List Specialty
deriving DecidableEq, Repr

/-- `Nurse.availability` (the fields the matching subsystem can see). -/
structure Availability where
  isOnline : Bool
  serviceRadius : ℚ
deriving DecidableEq, Repr

/-- `Nurse.stats`; accessed with `nurse.stats?.` in the source. -/
structure Stats where
  rating : ℚ
  totalBookings : ℕ
  averageResponseTime : ℚ
  completionRate : ℚ
deriving DecidableEq, Repr

/-- The nurse fields read by the matching code. -/
structure Nurse where
  id : String
  fullName : String
  district : String
  services : List String
  lastLocation : Option Coord
  avatarUrl : Option String
  availability : Availability
  rates : Option Rates
  stats : Option Stats
deriving DecidableEq, Repr

/-- The scored projection returned by `findAvailableNurses`
(`MatchedNurse` in `service-request.ts`). -/
structure MatchedNurse where
  nurseId : String
  fullName : String
  avatarUrl : String
  district : String
  matchScore : ℤ
  estimatedCost : ℚ
  distance : ℚ
  rating : ℚ
deriving DecidableEq, Repr

/-- The form input consumed by `createServiceRequest`
(`ServiceRequestInput` in `service-request.ts`). -/
structure ServiceRequestInput where
  serviceType : String
  scheduledDateTime : ℤ
  duration : ℚ
  specialRequirements : Option String
  isUrgent : Bool
  patientLocation : Coord
deriving DecidableEq, Repr

/-- JavaScript `x || d` on an optional number: the default replaces both a
missing value and `0` (zero is falsy). -/
def orDefault (x : Option ℚ) (d : ℚ) : ℚ :=
  match x with
  | some v => if v = 0 then d else v
  | none => d

/-- JavaScript `x || d` on an optional string (the empty string is falsy). -/
def orDefaultStr (x : Option String) (d : String) : String :=
  match x with
  | some s => if s = "" then d else s
  | none => d

/-- The rate used by both the price filter and the scorer:
`nurse.rates?.hourlyRate || 0`. -/
def nurseRate (nurse : Nurse) : ℚ :=
  orDefault (nurse.rates.map Rates.hourlyRate) 0

/-- `nurse.stats?.rating || 0`. -/
def nurseRating (nurse : Nurse) : ℚ :=
  orDefault (nurse.stats.map Stats.rating) 0

/-- The strict filtering predicate of `findAvailableNurses`
(matching-service.ts lines 46-83).  Distance is checked only when the
patient position, the nurse position and `maxDistance` are all present;
price compares the base hourly rate against the range; service type is an
exact membership test on the top-level `services` array. -/
def passesFilter (dist : Coord → Coord → ℚ) (patientLocation : Option Coord)
    (maxDistance : Option ℚ) (priceRange : Option PriceRange)
    (serviceType : Option String) (nurse : Nurse) : Bool :=
  (match patientLocation, nurse.lastLocation, maxDistance with
   | some p, some l, some m => decide (dist p l ≤ m)
   | _, _, _ => true)
  &&
  (match priceRange with
   | some pr => decide (pr.min ≤ nurseRate nurse) && decide (nurseRate nurse ≤ pr.max)
   | none => true)
  &&
  (match serviceType with
   | some s => nurse.services.contains s
   | none => true)

/-- The weighted scoring step of `findAvailableNurses`
(matching-service.ts lines 87-128).  Weights: distance 40, rating 30,
price 20, specialty 10; the sum is rounded (`Math.round`) with no
clamping. -/
def scoreNurse (dist : Coord → Coord → ℚ) (patientLocation : Option Coord)
    (maxDistance : Option ℚ) (priceRange : Option PriceRange)
    (serviceType : Option String) (nurse : Nurse) : MatchedNurse :=
  let distance : ℚ :=
    match patientLocation, nurse.lastLocation with
    | some p, some l => dist p l
    | _, _ => 0
  let rating := nurseRating nurse
  let rate := nurseRate nurse
  let specialtyBonus : ℚ :=
    match serviceType with
    | some s => if nurse.services.contains s then 1 else 0
    | none => 0
  let maxDistanceScore := orDefault maxDistance 10
  let distanceScore : ℚ :=
    match patientLocation, nurse.lastLocation with
    | some _, some _ => (1 - min (distance / maxDistanceScore) 1) * 40
    | _, _ => 0
  let ratingScore := rating / 5 * 30
  let priceScore : ℚ :=
    match priceRange with
    | some pr =>
      (1 - min ((rate - pr.min) / (if pr.max - pr.min = 0 then 1 else pr.max - pr.min)) 1) * 20
    | none => 0
  let specialtyScore := specialtyBonus * 10
  let matchScore : ℤ := round (distanceScore + ratingScore + priceScore + specialtyScore)
  { nurseId := nurse.id
    fullName := nurse.fullName
    avatarUrl := orDefaultStr nurse.avatarUrl "https://placehold.co/256x256.png"
    district := nurse.district
    matchScore := matchScore
    estimatedCost := rate * (3 / 2)
    distance := (round (distance * 10) : ℚ) / 10
    rating := rating }

/-- Stable insertion used to model the JavaScript stable sort
`.sort((a, b) => b.matchScore - a.matchScore)`: the new element is placed
before the first element whose score is not larger, so earlier elements
with an equal score stay in front. -/
def insertScored (x : MatchedNurse) : List MatchedNurse → List MatchedNurse
  | [] => [x]
  | y :: ys =>
    if x.matchScore < y.matchScore then y :: insertScored x ys
    else x :: y :: ys

/-- The descending stable sort by `matchScore` (matching-service.ts line 129). -/
def sortByScore : List MatchedNurse → List MatchedNurse
  | [] => []
  | x :: xs => insertScored x (sortByScore xs)

/-- The candidate filter: the Firestore query keeps online nurses
(`where("availability.isOnline", "==", true)`, line 32) and the strict
filter is then applied. -/
def candidateFilter (dist : Coord → Coord → ℚ) (patientLocation : Option Coord)
    (maxDistance : Option ℚ) (priceRange : Option PriceRange)
    (serviceType : Option String) (nurses : List Nurse) : List Nurse :=
  (nurses.filter (fun n => n.availability.isOnline)).filter
    (passesFilter dist patientLocation maxDistance priceRange serviceType)

/-- `findAvailableNurses` (matching-service.ts lines 17-130): query online
nurses, filter, score, and sort descending by score.  The
`preferredSpecialties` parameter of the source function is never read by
its body and is omitted. -/
def findAvailableNurses (dist : Coord → Coord → ℚ) (nurses : List Nurse)
    (patientLocation : Option Coord) (maxDistance : Option ℚ)
    (priceRange : Option PriceRange) (serviceType : Option String) :
    List MatchedNurse :=
  sortByScore
    ((candidateFilter dist patientLocation maxDistance priceRange serviceType nurses).map
      (scoreNurse dist patientLocation maxDistance priceRange serviceType))

/-- The request status enum of `service-request.ts`. -/
inductive Status
  | creating
  | findingNurses
  | pendingResponse
  | confirmed
  | inProgress
  | completed
  | cancelled
  | declined
deriving DecidableEq, Repr

/-- `ServiceRequest.matching`.  `selectedNurseIds` is written by
`offerServiceToNurse` / `handleNurseResponse` via dotted field paths even
though the TypeScript interface does not declare it. -/
structure Matching where
  availableNurses : List MatchedNurse
  selectedNurseId : Option String
  selectedNurseIds : List String
  pendingNurses : List String
  offerSentAt : Option ℤ
  responseDeadline : Option ℤ
deriving DecidableEq, Repr

/-- `ServiceRequest.payment.nursePayment`. -/
structure NursePayment where
  amount : ℚ
  paid : Bool
deriving DecidableEq, Repr

/-- `ServiceRequest.payment`. -/
structure Payment where
  platformFee : ℚ
  platformFeePaid : Bool
  nursePayment : NursePayment
deriving DecidableEq, Repr

/-- `ServiceRequest.serviceDetails`. -/
structure ServiceDetails where
  type : String
  scheduledDateTime : ℤ
  duration : ℚ
  address : String
  coordinates : Coord
  specialRequirements : String
  isUrgent : Bool
deriving DecidableEq, Repr

/-- The persistent service-request document (without the optional
post-completion review, which no embedded operation reads or is claimed
about). -/
structure ServiceRequest where
  patientId : String
  patientName : String
  serviceDetails : ServiceDetails
  status : Status
  matching : Matching
  payment : Payment
  createdAt : ℤ
  updatedAt : ℤ
deriving DecidableEq, Repr

/-- Firestore `arrayUnion(x)` on a string array: append if absent. -/
def arrayUnion (l : List String) (x : String) : List String :=
  if l.contains x then l else l ++ [x]

/-- Firestore `arrayRemove(x)` on a string array: remove all occurrences. -/
def arrayRemove (l : List String) (x : String) : List String :=
  l.filter (fun y => y ≠ x)

/-- `offerServiceToNurse` (matching-service.ts lines 202-215).  Note that
the `estimatedCost` argument is accepted but never used by the update: the
written fields are the status, the two nurse-id arrays, the offer
timestamps and `updatedAt`. -/
def offerServiceToNurse (now : ℤ) (nurseId : String) (estimatedCost : ℚ)
    (r : ServiceRequest) : ServiceRequest :=
  let _ := estimatedCost
  { r with
    status := .pendingResponse
    matching := { r.matching with
      pendingNurses := arrayUnion r.matching.pendingNurses nurseId
      selectedNurseIds := arrayUnion r.matching.selectedNurseIds nurseId
      offerSentAt := some now
      responseDeadline := some (now + 15 * 60 * 1000) }
    updatedAt := now }

/-- `cancelServiceRequest` (matching-service.ts lines 220-227). -/
def cancelServiceRequest (now : ℤ) (r : ServiceRequest) : ServiceRequest :=
  { r with status := .cancelled, updatedAt := now }

/-- `completeServiceRequest` (matching-service.ts lines 232-239). -/
def completeServiceRequest (now : ℤ) (r : ServiceRequest) : ServiceRequest :=
  { r with status := .completed, updatedAt := now }

/-- `handleNurseResponse` (matching-service.ts lines 263-296), applied to an
existing request document.  On accept: status `confirmed`, `selectedNurseId`
set, pending set cleared — with no check of the current status or of the
responding nurse.  On decline: the nurse id is removed from both arrays and
the request is declined when the pending set has become empty. -/
def handleNurseResponse (now : ℤ) (nurseId : String) (accepted : Bool)
    (r : ServiceRequest) : ServiceRequest :=
  if accepted then
    { r with
      status := .confirmed
      matching := { r.matching with
        selectedNurseId := some nurseId
        pendingNurses := [] }
      updatedAt := now }
  else
    let r1 : ServiceRequest :=
      { r with
        matching := { r.matching with
          pendingNurses := arrayRemove r.matching.pendingNurses nurseId
          selectedNurseIds := arrayRemove r.matching.selectedNurseIds nurseId }
        updatedAt := now }
    if r1.matching.pendingNurses.isEmpty then
      { r1 with status := .declined, updatedAt := now }
    else r1

/-- `handleNurseResponse` including its not-found guard (lines 265-269):
the only error the function raises is the absence of the request document. -/
def handleNurseResponseE (now : ℤ) (nurseId : String) (accepted : Bool) :
    Option ServiceRequest → Except String ServiceRequest
  | none => .error "Service request not found."
  | some r => .ok (handleNurseResponse now nurseId accepted r)

/-- `createServiceRequest` (matching-service.ts lines 140-196) up to the
persistence call: the matching pass, the top-4 selection and the new
document.  Returns the document together with the selected nurses. -/
def createServiceRequest (dist : Coord → Coord → ℚ) (now : ℤ)
    (patient : Patient) (requestInput : ServiceRequestInput)
    (nurses : List Nurse) : ServiceRequest × List MatchedNurse :=
  let availableNurses := findAvailableNurses dist nurses
    (some requestInput.patientLocation)
    (patient.preferences.map Preferences.maxDistance)
    (patient.preferences.map Preferences.priceRange)
    (some requestInput.serviceType)
  let selectedNurses := availableNurses.take 4
  let newRequest : ServiceRequest :=
    { patientId := patient.id
      patientName := patient.name
      serviceDetails :=
        { type := requestInput.serviceType
          scheduledDateTime := requestInput.scheduledDateTime
          duration := requestInput.duration
          address := "User's current location"
          coordinates := requestInput.patientLocation
          specialRequirements := requestInput.specialRequirements.getD ""
          isUrgent := requestInput.isUrgent }
      status := .findingNurses
      matching :=
        { availableNurses := availableNurses
          selectedNurseId := none
          selectedNurseIds := []
          pendingNurses := []
          offerSentAt := none
          responseDeadline := none }
      payment :=
        { platformFee := 5
          platformFeePaid := false
          nursePayment :=
            { amount := match selectedNurses with
                | n :: _ => n.estimatedCost
                | [] => 0
              paid := false } }
      createdAt := now
      updatedAt := now }
  (newRequest, selectedNurses)

/-- The offer loop of `createServiceRequest` (lines 190-193): one
`offerServiceToNurse` call per selected nurse, applied to the freshly
created document. -/
def createAndSendOffers (dist : Coord → Coord → ℚ) (now : ℤ)
    (patient : Patient) (requestInput : ServiceRequestInput)
    (nurses : List Nurse) : ServiceRequest × List MatchedNurse :=
  let created := createServiceRequest dist now patient requestInput nurses
  (created.2.foldl (fun r n => offerServiceToNurse now n.nurseId n.estimatedCost r)
    created.1, created.2)

/-- The UI steps of the `FindNurse` component (find-nurse.tsx line 878). -/
inductive Step
  | request
  | waiting
  | confirmed
  | failed
deriving DecidableEq, Repr

/-- The component state touched by the request-observation handler. -/
structure UiState where
  step : Step
  error : Option String
  loading : Bool
deriving DecidableEq, Repr

/-- A write the client could issue against the stored request document. -/
inductive StoreWrite
  | updateStatus (s : Status)
deriving DecidableEq, Repr

/-- Applying a list of client writes to the stored request document. -/
def applyWrites (writes : List StoreWrite) (r : ServiceRequest) : ServiceRequest :=
  writes.foldl (fun req w => match w with | .updateStatus s => { req with status := s }) r

/-- The `onSnapshot` observation handler of the `FindNurse` component
(find-nurse.tsx lines 988-1022): it only updates component state and shows
toasts; no branch issues a write against the stored request. -/
def onRequestSnapshot (now : ℤ) (data : ServiceRequest) (ui : UiState) :
    UiState × List StoreWrite :=
  if data.status = .confirmed then
    ({ ui with step := .confirmed, loading := false }, [])
  else if data.status = .declined then
    ({ ui with
        step := .failed
        loading := false
        error := some "The nurse was unavailable. Please try finding another match." }, [])
  else
    match data.matching.responseDeadline with
    | some deadline =>
      if data.status = .pendingResponse then
        if deadline < now then
          ({ ui with
              step := .failed
              loading := false
              error := some "The nurse did not respond in time. Please try finding another match." }, [])
        else (ui, [])
      else (ui, [])
    | none => (ui, [])

/-- Modelled from the spec (section 4.1, Candidate Nurse Filter), for
comparison with the implemented filter: the applicable rate is the
specialty-specific rate when the nurse offers the requested specialty and
the hourly base rate otherwise. -/
def specApplicableRate (serviceType : Option String) (nurse : Nurse) : ℚ :=
  match nurse.rates with
  | none => 0
  | some rs =>
    match serviceType with
    | none => rs.hourlyRate
    | some s =>
      match rs.specialties.find? (fun sp => sp.name == s) with
      | some sp => sp.rate
      | none => rs.hourlyRate

/-- Modelled from the spec (section 4.1, Candidate Nurse Filter): online;
distance at most the smaller of the patient's max-distance preference and
the nurse's own service radius; applicable rate within the price range;
requested service type offered. -/
def specPassesFilter (dist : Coord → Coord → ℚ) (patientLocation : Option Coord)
    (maxDistance : Option ℚ) (priceRange : Option PriceRange)
    (serviceType : Option String) (nurse : Nurse) : Bool :=
  nurse.availability.isOnline
  &&
  (match patientLocation, nurse.lastLocation with
   | some p, some l =>
     let bound : ℚ :=
       match maxDistance with
       | some m => min m nurse.availability.serviceRadius
       | none => nurse.availability.serviceRadius
     decide (dist p l ≤ bound)
   | _, _ => true)
  &&
  (match priceRange with
   | some pr =>
     decide (pr.min ≤ specApplicableRate serviceType nurse)
       && decide (specApplicableRate serviceType nurse ≤ pr.max)
   | none => true)
  &&
  (match serviceType with
   | some s => nurse.services.contains s
   | none => true)

/-- An abstract lifecycle operation on a service-request document. -/
inductive Op
  | offer (now : ℤ) (nurseId : String) (estimatedCost : ℚ)
  | respond (now : ℤ) (nurseId : String) (accepted : Bool)
  | cancel (now : ℤ)
  | complete (now : ℤ)
deriving DecidableEq, Repr

/-- Dispatch of an operation to the corresponding source function. -/
def applyOp : Op → ServiceRequest → ServiceRequest
  | .offer now nid cost, r => offerServiceToNurse now nid cost r
  | .respond now nid acc, r => handleNurseResponse now nid acc r
  | .cancel now, r => cancelServiceRequest now r
  | .complete now, r => completeServiceRequest now r

/-- Running a sequence of lifecycle operations. -/
def runOps (ops : List Op) (r : ServiceRequest) : ServiceRequest :=
  ops.foldl (fun s op => applyOp op s) r

/-- The nurse ids to which the operations of a trace send offers. -/
def offeredIds : List Op → List String
  | [] => []
  | .offer _ nid _ :: ops => nid :: offeredIds ops
  | _ :: ops => offeredIds ops

/-- Decides that every accepting response of a trace comes from a nurse
that received an offer earlier in the trace (or was already offered,
per the accumulator). -/
def acceptsFromOffered : List Op → List String → Bool
  | [], _ => true
  | .offer _ nid _ :: ops, offered => acceptsFromOffered ops (nid :: offered)
  | .respond _ nid true :: ops, offered =>
    offered.contains nid && acceptsFromOffered ops offered
  | _ :: ops, offered => acceptsFromOffered ops offered

/-- Distance function used by the concrete witnesses: taxicab distance on
the coordinates, standing in for the abstracted external distance
computation. -/
def exDist (a b : Coord) : ℚ :=
  |a.latitude - b.latitude| + |a.longitude - b.longitude|

/-- A patient position at the origin. -/
def exP : Coord := ⟨0, 0⟩

/-- An online nurse 4 km away charging 60 per hour. -/
def exN1 : Nurse :=
  { id := "n1"
    fullName := "N One"
    district := "d1"
    services := []
    lastLocation := some ⟨4, 0⟩
    avatarUrl := none
    availability := ⟨true, 50⟩
    rates := some ⟨60, []⟩
    stats := none }

/-- An online nurse 2 km away charging 100 per hour. -/
def exN2 : Nurse :=
  { id := "n2"
    fullName := "N Two"
    district := "d2"
    services := []
    lastLocation := some ⟨2, 0⟩
    avatarUrl := none
    availability := ⟨true, 50⟩
    rates := some ⟨100, []⟩
    stats := none }

/-- An online nurse 5 km away whose own service radius is only 1 km. -/
def exN3 : Nurse :=
  { id := "n3"
    fullName := "N Three"
    district := "d3"
    services := ["general"]
    lastLocation := some ⟨5, 0⟩
    avatarUrl := none
    availability := ⟨true, 1⟩
    rates := some ⟨60, []⟩
    stats := none }

/-- An online nurse with a base rate of 30 and a specialty rate of 80 for
wound care. -/
def exN4 : Nurse :=
  { id := "n4"
    fullName := "N Four"
    district := "d4"
    services := ["wound-care"]
    lastLocation := some ⟨1, 0⟩
    avatarUrl := none
    availability := ⟨true, 50⟩
    rates := some ⟨30, [⟨"wound-care", 80⟩]⟩
    stats := none }

/-- An online nurse at the patient's position with rating 5 whose rate 0
lies below the price-range minimum used in the score counterexample. -/
def exN5 : Nurse :=
  { id := "n5"
    fullName := "N Five"
    district := "d5"
    services := ["general"]
    lastLocation := some ⟨0, 0⟩
    avatarUrl := none
    availability := ⟨true, 50⟩
    rates := some ⟨0, []⟩
    stats := some ⟨5, 12, 10, 1⟩ }

/-- Service details shared by the concrete requests. -/
def exDetails : ServiceDetails :=
  { type := "general"
    scheduledDateTime := 0
    duration := 2
    address := "User's current location"
    coordinates := exP
    specialRequirements := ""
    isUrgent := false }

/-- A pending-response request with two outstanding offers. -/
def exReq : ServiceRequest :=
  { patientId := "p1"
    patientName := "Pat"
    serviceDetails := exDetails
    status := .pendingResponse
    matching :=
      { availableNurses := []
        selectedNurseId := none
        selectedNurseIds := ["nurseA", "nurseB"]
        pendingNurses := ["nurseA", "nurseB"]
        offerSentAt := some 0
        responseDeadline := some 900000 }
    payment := ⟨5, false, ⟨90, false⟩⟩
    createdAt := 0
    updatedAt := 0 }

/-- An already-declined request. -/
def exReqDeclined : ServiceRequest :=
  { exReq with status := .declined }

/-- A freshly created request with no offers and a zero payment amount. -/
def exReq0 : ServiceRequest :=
  { exReq with
    status := .findingNurses
    matching :=
      { availableNurses := []
        selectedNurseId := none
        selectedNurseIds := []
        pendingNurses := []
        offerSentAt := none
        responseDeadline := none }
    payment := ⟨5, false, ⟨0, false⟩⟩ }

/-- The component state while waiting for a response. -/
def exUi : UiState := ⟨.waiting, none, true⟩

/-- A patient without stored preferences. -/
def exPatient : Patient := ⟨"p1", "Pat", none⟩

/-- A concrete form input located at the origin. -/
def exInput : ServiceRequestInput := ⟨"general", 0, 2, none, false, exP⟩

theorem mem_insertScored {z x : MatchedNurse} {l : List MatchedNurse} :
    z ∈ insertScored x l ↔ z = x ∨ z ∈ l := by
  induction l with
  | nil => simp [insertScored]
  | cons y ys ih =>
    rw [insertScored]
    split
    · simp only [List.mem_cons, ih]
      tauto
    · simp [List.mem_cons]

theorem insertScored_perm (x : MatchedNurse) (l : List MatchedNurse) :
    List.Perm (insertScored x l) (x :: l) := by
  induction l with
  | nil => simp [insertScored]
  | cons y ys ih =>
    rw [insertScored]
    split
    · exact ((ih.cons y).trans (List.Perm.swap x y ys))
    · exact List.Perm.refl _

theorem insertScored_sorted (x : MatchedNurse) {l : List MatchedNurse}
    (h : List.Sorted (fun a b => b.matchScore ≤ a.matchScore) l) :
    List.Sorted (fun a b => b.matchScore ≤ a.matchScore) (insertScored x l) := by
  induction l with
  | nil => simp [insertScored]
  | cons y ys ih =>
    rw [List.sorted_cons] at h
    rw [insertScored]
    split
    · next hlt =>
      rw [List.sorted_cons]
      refine ⟨?_, ih h.2⟩
      intro z hz
      rcases mem_insertScored.mp hz with rfl | hz
      · exact le_of_lt hlt
      · exact h.1 z hz
    · next hge =>
      push_neg at hge
      rw [List.sorted_cons]
      refine ⟨?_, List.sorted_cons.mpr h⟩
      intro z hz
      rcases List.mem_cons.mp hz with rfl | hz
      · exact hge
      · exact le_trans (h.1 z hz) hge

theorem insertScored_filter (s : ℤ) (x : MatchedNurse) (l : List MatchedNurse) :
    (insertScored x l).filter (fun m => m.matchScore == s) =
      if x.matchScore == s then x :: l.filter (fun m => m.matchScore == s)
      else l.filter (fun m => m.matchScore == s) := by
  induction l with
  | nil =>
    by_cases h : x.matchScore = s
    · have hb : (x.matchScore == s) = true := by simp [h]
      simp [insertScored, List.filter, hb, h]
    · have hb : (x.matchScore == s) = false := by simp [h]
      simp [insertScored, List.filter, hb, h]
  | cons y ys ih =>
    rw [insertScored]
    split
    · next hlt =>
      by_cases hxs : x.matchScore = s
      · have hys : (y.matchScore == s) = false := by
          simp only [beq_eq_false_iff_ne]
          omega
        simp only [List.filter_cons, hys, ih, hxs, beq_self_eq_true, if_true]
        simp [hys]
      · have hxs' : (x.matchScore == s) = false := by simp [hxs]
        simp only [List.filter_cons, ih, hxs', if_false]
        simp [List.filter_cons]
    · simp [List.filter_cons]

theorem sortByScore_sorted (l : List MatchedNurse) :
    List.Sorted (fun a b => b.matchScore ≤ a.matchScore) (sortByScore l) := by
  induction l with
  | nil => simp [sortByScore]
  | cons x xs ih => exact insertScored_sorted x ih

theorem sortByScore_perm (l : List MatchedNurse) :
    List.Perm (sortByScore l) l := by
  induction l with
  | nil => simp [sortByScore]
  | cons x xs ih =>
    rw [sortByScore]
    exact (insertScored_perm x (sortByScore xs)).trans (ih.cons x)

theorem sortByScore_filter (s : ℤ) (l : List MatchedNurse) :
    (sortByScore l).filter (fun m => m.matchScore == s) =
      l.filter (fun m => m.matchScore == s) := by
  induction l with
  | nil => simp [sortByScore]
  | cons x xs ih =>
    rw [sortByScore, insertScored_filter, List.filter_cons]
    split
    · next h => simp [h, ih]
    · next h => simp [h, ih]

theorem arrayRemove_nil (x : String) : arrayRemove [] x = [] := rfl

theorem arrayRemove_idem (l : List String) (x : String) :
    arrayRemove (arrayRemove l x) x = arrayRemove l x := by
  unfold arrayRemove
  rw [List.filter_filter]
  simp

theorem handleNurseResponse_decline_selectedNurseId (now : ℤ) (nid : String)
    (r : ServiceRequest) :
    (handleNurseResponse now nid false r).matching.selectedNurseId =
      r.matching.selectedNurseId := by
  unfold handleNurseResponse
  rw [if_neg Bool.false_ne_true]
  dsimp only
  split <;> rfl

theorem handleNurseResponse_decline_status (now : ℤ) (nid : String)
    (r : ServiceRequest) :
    (handleNurseResponse now nid false r).status = r.status ∨
      (handleNurseResponse now nid false r).status = Status.declined := by
  unfold handleNurseResponse
  rw [if_neg Bool.false_ne_true]
  dsimp only
  split
  · exact Or.inr rfl
  · exact Or.inl rfl

theorem runOps_confirmed_selected (ops : List Op) (offered : List String)
    (r : ServiceRequest) (hacc : acceptsFromOffered ops offered = true)
    (hinv : r.status = Status.confirmed →
      ∃ n, r.matching.selectedNurseId = some n ∧ n ∈ offered) :
    (runOps ops r).status = Status.confirmed →
      ∃ n, (runOps ops r).matching.selectedNurseId = some n ∧
        (n ∈ offeredIds ops ∨ n ∈ offered) := by
  induction ops generalizing offered r with
  | nil =>
    intro h
    rcases hinv h with ⟨n, h1, h2⟩
    exact ⟨n, h1, Or.inr h2⟩
  | cons op ops ih =>
    cases op with
    | offer now nid cost =>
      simp only [acceptsFromOffered] at hacc
      have h2 := ih (nid :: offered) (offerServiceToNurse now nid cost r) hacc
        (by intro h; simp [offerServiceToNurse] at h)
      intro hconf
      rcases h2 hconf with ⟨n, hn1, hn2⟩
      refine ⟨n, hn1, ?_⟩
      simp only [offeredIds, List.mem_cons] at hn2 ⊢
      tauto
    | respond now nid acc =>
      cases acc with
      | true =>
        simp only [acceptsFromOffered, Bool.and_eq_true] at hacc
        have hmem : nid ∈ offered := by
          have h1 := hacc.1
          simpa using h1
        intro hconf
        have h2 := ih offered (handleNurseResponse now nid true r) hacc.2
          (by
            intro _
            refine ⟨nid, ?_, hmem⟩
            simp [handleNurseResponse])
        rcases h2 hconf with ⟨n, hn1, hn2⟩
        exact ⟨n, hn1, by simpa [offeredIds] using hn2⟩
      | false =>
        have hacc2 : acceptsFromOffered ops offered = true := hacc
        intro hconf
        have h2 := ih offered (handleNurseResponse now nid false r) hacc2
          (by
            intro hst
            rcases handleNurseResponse_decline_status now nid r with h | h
            · rw [handleNurseResponse_decline_selectedNurseId]
              exact hinv (h ▸ hst)
            · rw [h] at hst
              exact absurd hst.symm (by simp))
        rcases h2 hconf with ⟨n, hn1, hn2⟩
        exact ⟨n, hn1, by simpa [offeredIds] using hn2⟩
    | cancel now =>
      intro hconf
      have h2 := ih offered (cancelServiceRequest now r) hacc
        (by intro h; simp [cancelServiceRequest] at h)
      rcases h2 hconf with ⟨n, hn1, hn2⟩
      exact ⟨n, hn1, by simpa [offeredIds] using hn2⟩
    | complete now =>
      intro hconf
      have h2 := ih offered (completeServiceRequest now r) hacc
        (by intro h; simp [completeServiceRequest] at h)
      rcases h2 hconf with ⟨n, hn1, hn2⟩
      exact ⟨n, hn1, by simpa [offeredIds] using hn2⟩

theorem weighted_round_bounds (ds rs ps ss : ℚ)
    (h1 : 0 ≤ ds ∧ ds ≤ 40) (h2 : 0 ≤ rs ∧ rs ≤ 30)
    (h3 : 0 ≤ ps ∧ ps ≤ 20) (h4 : 0 ≤ ss ∧ ss ≤ 10) :
    0 ≤ round (ds + rs + ps + ss) ∧ round (ds + rs + ps + ss) ≤ 100 := by
  rw [round_eq]
  constructor
  · exact Int.floor_nonneg.mpr (by linarith)
  · have hlt : (⌊ds + rs + ps + ss + 1 / 2⌋ : ℤ) < 101 := by
      rw [Int.floor_lt]
      push_cast
      linarith
    omega

theorem unitInterval_bounds (t : ℚ) (h : 0 ≤ t) :
    0 ≤ 1 - min t 1 ∧ 1 - min t 1 ≤ 1 := by
  rcases le_total t 1 with h1 | h1
  · rw [min_eq_left h1]
    constructor <;> linarith
  · rw [min_eq_right h1]
    norm_num

/-- C3 counterexample: the implemented filter accepts a nurse well outside
its own 1 km service radius (the spec rule would exclude it), and rejects a
nurse whose specialty-specific rate is inside the price range because it
only ever compares the hourly base rate. -/
theorem filter_ignores_radius_and_specialty_rate :
    passesFilter exDist (some exP) (some 10) (some ⟨0, 100⟩) (some "general") exN3 = true ∧
    specPassesFilter exDist (some exP) (some 10) (some ⟨0, 100⟩) (some "general") exN3 = false ∧
    passesFilter exDist (some exP) (some 10) (some ⟨50, 100⟩) (some "wound-care") exN4 = false ∧
    specPassesFilter exDist (some exP) (some 10) (some ⟨50, 100⟩) (some "wound-care") exN4 = true := by
  refine ⟨?_, ?_, ?_, ?_⟩
  · unfold passesFilter
    simp only [exN3, exP, exDist, nurseRate, orDefault, Option.map_some]
    norm_num
  · unfold specPassesFilter specApplicableRate
    simp only [exN3, exP, exDist]
    norm_num [min_def]
  · unfold passesFilter
    simp only [exN4, exP, exDist, nurseRate, orDefault, Option.map_some]
    norm_num
  · unfold specPassesFilter specApplicableRate
    simp only [exN4, exP, exDist, List.find?]
    norm_num [min_def]

/-- C3 (amended): a nurse is kept by the candidate filter exactly when it is
online, the distance does not exceed the patient's max-distance preference
whenever patient position, nurse position and that preference are all
known (the nurse's own service radius is never consulted), the hourly base
rate (0 when rates are missing) is within the patient's price range
whenever one is given (specialty rates are never consulted), and the
requested service type, when given, is listed among the nurse's services. -/
theorem candidateFilter_mem (dist : Coord → Coord → ℚ)
    (pl : Option Coord) (md : Option ℚ) (pr : Option PriceRange)
    (st : Option String) (nurses : List Nurse) (n : Nurse) :
    n ∈ candidateFilter dist pl md pr st nurses ↔
      n ∈ nurses ∧ n.availability.isOnline = true ∧
      (∀ p l m, pl = some p → n.lastLocation = some l → md = some m →
        dist p l ≤ m) ∧
      (∀ q, pr = some q → q.min ≤ nurseRate n ∧ nurseRate n ≤ q.max) ∧
      (∀ s, st = some s → s ∈ n.services) := by
  obtain ⟨nid, nfn, nd, nsv, nloc, nau, nav, nrts, nsts⟩ := n
  unfold candidateFilter passesFilter
  simp only [List.mem_filter, Bool.and_eq_true, decide_eq_true_eq]
  cases pl <;> cases md <;> cases pr <;> cases st <;> cases nloc <;>
    (simp; try tauto)

/-- C4 counterexample: two candidates tie at score 32 while the first one is
farther away (4 km vs 2 km); the implementation keeps the original order,
so the tie is not broken by ascending distance. -/
theorem tie_keeps_original_order :
    (findAvailableNurses exDist [exN1, exN2] (some exP) (some 10) (some ⟨0, 100⟩) none).map
        MatchedNurse.matchScore = [32, 32] ∧
    (findAvailableNurses exDist [exN1, exN2] (some exP) (some 10) (some ⟨0, 100⟩) none).map
        MatchedNurse.distance = [4, 2] := by
  have h1 : scoreNurse exDist (some exP) (some 10) (some ⟨0, 100⟩) none exN1 =
      ⟨"n1", "N One", "https://placehold.co/256x256.png", "d1", 32, 90, 4, 0⟩ := by
    unfold scoreNurse
    simp only [exN1, exP, exDist, nurseRate, nurseRating, orDefault, orDefaultStr,
      Option.map_some]
    norm_num [min_def, round_eq]
  have h2 : scoreNurse exDist (some exP) (some 10) (some ⟨0, 100⟩) none exN2 =
      ⟨"n2", "N Two", "https://placehold.co/256x256.png", "d2", 32, 150, 2, 0⟩ := by
    unfold scoreNurse
    simp only [exN2, exP, exDist, nurseRate, nurseRating, orDefault, orDefaultStr,
      Option.map_some]
    norm_num [min_def, round_eq]
  have hf : candidateFilter exDist (some exP) (some 10) (some ⟨0, 100⟩) none [exN1, exN2] =
      [exN1, exN2] := by
    unfold candidateFilter
    norm_num [passesFilter, nurseRate, orDefault, exN1, exN2, exDist, exP, List.filter]
  unfold findAvailableNurses
  rw [hf]
  simp only [List.map_cons, List.map_nil, h1, h2]
  norm_num [sortByScore, insertScored]

/-- C4 (amended): the ranking is a permutation of the scored candidates that
is sorted in non-increasing order of match score, with candidates of equal
score kept in their stable original order (distance and rating are not
consulted as tie-breakers), and `createServiceRequest` selects the first 4
elements of that order (the count 4 is fixed, not a parameter). -/
theorem ranking_sorts_by_score_stably (l : List MatchedNurse) :
    List.Perm (sortByScore l) l ∧
    List.Sorted (fun a b => b.matchScore ≤ a.matchScore) (sortByScore l) ∧
    (∀ s : ℤ, (sortByScore l).filter (fun m => m.matchScore == s) =
      l.filter (fun m => m.matchScore == s)) ∧
    (∀ (dist : Coord → Coord → ℚ) (now : ℤ) (patient : Patient)
        (input : ServiceRequestInput) (nurses : List Nurse),
      (createServiceRequest dist now patient input nurses).2 =
        (findAvailableNurses dist nurses (some input.patientLocation)
          (patient.preferences.map Preferences.maxDistance)
          (patient.preferences.map Preferences.priceRange)
          (some input.serviceType)).take 4) := by
  refine ⟨sortByScore_perm l, sortByScore_sorted l, fun s => sortByScore_filter s l, ?_⟩
  intro dist now patient input nurses
  rfl

/-- C2 counterexample: the score is not clamped to [0, 100].  For a nurse at
the patient's position with rating 5, a matching specialty and a rate of 0
below the price-range minimum 50, the computed match score is 120. -/
theorem score_exceeds_100_below_price_min :
    (scoreNurse exDist (some exP) (some 10) (some ⟨50, 100⟩) (some "general") exN5).matchScore
      = 120 ∧
    100 <
      (scoreNurse exDist (some exP) (some 10) (some ⟨50, 100⟩) (some "general") exN5).matchScore := by
  have h : (scoreNurse exDist (some exP) (some 10) (some ⟨50, 100⟩) (some "general")
      exN5).matchScore = 120 := by
    unfold scoreNurse
    simp only [exN5, exP, exDist, nurseRate, nurseRating, orDefault, Option.map_some]
    norm_num [min_def, round_eq]
  exact ⟨h, by rw [h]; norm_num⟩

/-- C2 (amended): for every nurse that passes the candidate filter, provided
the abstract distance function is nonnegative, any max-distance preference
is nonnegative and the stored rating lies in [0, 5], the match score is an
integer in [0, 100], obtained by rounding to the nearest integer alone (the
code never clamps; the bound holds because the filter constrains the rate). -/
theorem score_bounds_of_filtered (dist : Coord → Coord → ℚ)
    (pl : Option Coord) (md : Option ℚ) (pr : Option PriceRange)
    (st : Option String) (nurse : Nurse)
    (hd : ∀ p l, 0 ≤ dist p l)
    (hm : ∀ m, md = some m → 0 ≤ m)
    (hr0 : 0 ≤ nurseRating nurse) (hr5 : nurseRating nurse ≤ 5)
    (hf : passesFilter dist pl md pr st nurse = true) :
    0 ≤ (scoreNurse dist pl md pr st nurse).matchScore ∧
      (scoreNurse dist pl md pr st nurse).matchScore ≤ 100 := by
  have hpr : ∀ q, pr = some q →
      q.min ≤ nurseRate nurse ∧ nurseRate nurse ≤ q.max := by
    intro q hq
    subst hq
    unfold passesFilter at hf
    simp only [Bool.and_eq_true, decide_eq_true_eq] at hf
    exact hf.1.2
  have hmds : 0 < orDefault md 10 := by
    unfold orDefault
    cases md with
    | none => norm_num
    | some m =>
      have := hm m rfl
      dsimp only
      split
      · norm_num
      · next hne => exact lt_of_le_of_ne this (Ne.symm hne)
  unfold scoreNurse
  dsimp only
  apply weighted_round_bounds
  · cases pl with
    | none =>
      cases hlo : nurse.lastLocation <;> simp
    | some p =>
      cases hlo : nurse.lastLocation with
      | none => simp
      | some l =>
        simp only
        have ht : 0 ≤ dist p l / orDefault md 10 := div_nonneg (hd p l) hmds.le
        obtain ⟨u1, u2⟩ := unitInterval_bounds _ ht
        constructor <;> linarith
  · constructor <;> linarith
  · cases pr with
    | none => simp
    | some q =>
      simp only
      obtain ⟨hmin, hmax⟩ := hpr q rfl
      have hden : (0 : ℚ) < (if q.max - q.min = 0 then 1 else q.max - q.min) := by
        split
        · norm_num
        · next hne =>
          have : q.min ≤ q.max := le_trans hmin hmax
          have h2 : 0 ≤ q.max - q.min := by linarith
          exact lt_of_le_of_ne h2 (Ne.symm hne)
      have ht : 0 ≤ (nurseRate nurse - q.min) /
          (if q.max - q.min = 0 then 1 else q.max - q.min) :=
        div_nonneg (by linarith) hden.le
      obtain ⟨u1, u2⟩ := unitInterval_bounds _ ht
      constructor <;> linarith
  · cases st with
    | none => simp
    | some s =>
      simp only
      split <;> norm_num

/-- C2 witness: the amended bound theorem applied to the concrete filtered
nurse of the tie example. -/
theorem score_bounds_of_filtered_witness :
    (∀ p l, 0 ≤ exDist p l) ∧
    (∀ m, (some (10 : ℚ)) = some m → 0 ≤ m) ∧
    (0 ≤ nurseRating exN1 ∧ nurseRating exN1 ≤ 5) ∧
    passesFilter exDist (some exP) (some 10) (some ⟨0, 100⟩) none exN1 = true ∧
    (0 ≤ (scoreNurse exDist (some exP) (some 10) (some ⟨0, 100⟩) none exN1).matchScore ∧
      (scoreNurse exDist (some exP) (some 10) (some ⟨0, 100⟩) none exN1).matchScore ≤ 100) := by
  have hd : ∀ p l, 0 ≤ exDist p l := fun p l => add_nonneg (abs_nonneg _) (abs_nonneg _)
  have hm : ∀ m, (some (10 : ℚ)) = some m → 0 ≤ m := by
    intro m h
    injection h with h
    rw [← h]
    norm_num
  have hr : 0 ≤ nurseRating exN1 ∧ nurseRating exN1 ≤ 5 := by
    unfold nurseRating orDefault
    simp [exN1]
  have hf : passesFilter exDist (some exP) (some 10) (some ⟨0, 100⟩) none exN1 = true := by
    unfold passesFilter
    simp only [exN1, exP, exDist, nurseRate, orDefault, Option.map_some]
    norm_num
  exact ⟨hd, hm, hr, hf,
    score_bounds_of_filtered exDist (some exP) (some 10) (some ⟨0, 100⟩) none exN1
      hd hm hr.1 hr.2 hf⟩


/-- C1 counterexample: against the pending-response request with offers out
to nurseA and nurseB, accepting as nurseA and then as nurseB succeeds both
times — the second call returns ok (no stale-state error) and overwrites
the selection with nurseB — and completing the already-declined request
also succeeds. -/
theorem second_accept_not_rejected :
    (handleNurseResponseE 1 "nurseB" true
        (some (handleNurseResponse 0 "nurseA" true exReq))).toOption.map
      (fun r => (r.status, r.matching.selectedNurseId)) =
      some (Status.confirmed, some "nurseB") ∧
    (completeServiceRequest 2 exReqDeclined).status = Status.completed := by
  exact ⟨rfl, rfl⟩

/-- C1 (amended): the lifecycle operations check no status precondition.
`handleNurseResponse` on an existing request always succeeds (its only
error is the not-found case), a second accept also yields `confirmed` and
overwrites `selectedNurseId` (last write wins), and `completeServiceRequest`
and `cancelServiceRequest` apply their transition from any current
status. -/
theorem lifecycle_ops_unconditional (now1 now2 : ℤ) (a b : String)
    (r : ServiceRequest) :
    (handleNurseResponse now1 a true r).status = Status.confirmed ∧
    handleNurseResponseE now2 b true (some (handleNurseResponse now1 a true r)) =
      Except.ok (handleNurseResponse now2 b true (handleNurseResponse now1 a true r)) ∧
    (handleNurseResponse now2 b true (handleNurseResponse now1 a true r)).status =
      Status.confirmed ∧
    (handleNurseResponse now2 b true
      (handleNurseResponse now1 a true r)).matching.selectedNurseId = some b ∧
    (completeServiceRequest now1 r).status = Status.completed ∧
    (cancelServiceRequest now1 r).status = Status.cancelled :=
  ⟨rfl, rfl, rfl, rfl, rfl, rfl⟩

/-- C5 counterexample: the offer does not store the estimated cost: after
offering the request to a nurse at cost 75, the nurse-payment amount is
still the 0 it held at creation. -/
theorem offer_leaves_payment_amount :
    (offerServiceToNurse 0 "n1" 75 exReq0).payment.nursePayment.amount = 0 ∧
    (offerServiceToNurse 0 "n1" 75 exReq0).payment.nursePayment.amount ≠ 75 := by
  refine ⟨rfl, ?_⟩
  rw [show (offerServiceToNurse 0 "n1" 75 exReq0).payment.nursePayment.amount = 0 from rfl]
  norm_num

/-- C5 (amended): after `offerServiceToNurse`, the nurse id is in the
pending set (and in the selected-ids set), `offerSentAt` is the offer time,
`responseDeadline` is the offer time plus the 15-minute window, and the
status is pending-response — but the payment sub-structure, including the
nurse-payment amount, is untouched (the `estimatedCost` argument is
ignored; the amount was fixed at creation time). -/
theorem offer_effects (now : ℤ) (nid : String) (cost : ℚ) (r : ServiceRequest) :
    (offerServiceToNurse now nid cost r).status = Status.pendingResponse ∧
    nid ∈ (offerServiceToNurse now nid cost r).matching.pendingNurses ∧
    nid ∈ (offerServiceToNurse now nid cost r).matching.selectedNurseIds ∧
    (offerServiceToNurse now nid cost r).matching.offerSentAt = some now ∧
    (offerServiceToNurse now nid cost r).matching.responseDeadline =
      some (now + 15 * 60 * 1000) ∧
    (offerServiceToNurse now nid cost r).payment = r.payment := by
  refine ⟨rfl, ?_, ?_, rfl, rfl, rfl⟩ <;>
  · unfold offerServiceToNurse arrayUnion
    dsimp only
    split
    · next h => simpa using h
    · simp

/-- C6 (confirmed): declining removes the nurse from the pending set and
from no other membership; if the pending set thereby becomes empty the
request is declined, otherwise it stays pending-response. -/
theorem decline_updates_pending (now : ℤ) (nid : String) (r : ServiceRequest)
    (h : r.status = Status.pendingResponse) :
    nid ∉ (handleNurseResponse now nid false r).matching.pendingNurses ∧
    (∀ x, x ≠ nid →
      (x ∈ (handleNurseResponse now nid false r).matching.pendingNurses ↔
        x ∈ r.matching.pendingNurses)) ∧
    ((handleNurseResponse now nid false r).matching.pendingNurses = [] →
      (handleNurseResponse now nid false r).status = Status.declined) ∧
    ((handleNurseResponse now nid false r).matching.pendingNurses ≠ [] →
      (handleNurseResponse now nid false r).status = Status.pendingResponse) := by
  unfold handleNurseResponse
  rw [if_neg Bool.false_ne_true]
  dsimp only
  split
  · next hemp =>
    rw [List.isEmpty_iff] at hemp
    refine ⟨?_, ?_, fun _ => rfl, fun hne => absurd hemp hne⟩
    · simp [arrayRemove]
    · intro x hx
      simp [arrayRemove, hx]
  · next hemp =>
    refine ⟨?_, ?_, ?_, fun _ => h⟩
    · simp [arrayRemove]
    · intro x hx
      simp [arrayRemove, hx]
    · intro he
      rw [List.isEmpty_iff] at hemp
      exact absurd he hemp

/-- C6 witness: the concrete pending-response request still awaits nurseB
after nurseA declines. -/
theorem decline_updates_pending_witness :
    exReq.status = Status.pendingResponse ∧
    ("nurseA" ∉ (handleNurseResponse 5 "nurseA" false exReq).matching.pendingNurses ∧
    (∀ x, x ≠ "nurseA" →
      (x ∈ (handleNurseResponse 5 "nurseA" false exReq).matching.pendingNurses ↔
        x ∈ exReq.matching.pendingNurses)) ∧
    ((handleNurseResponse 5 "nurseA" false exReq).matching.pendingNurses = [] →
      (handleNurseResponse 5 "nurseA" false exReq).status = Status.declined) ∧
    ((handleNurseResponse 5 "nurseA" false exReq).matching.pendingNurses ≠ [] →
      (handleNurseResponse 5 "nurseA" false exReq).status = Status.pendingResponse)) :=
  ⟨rfl, decline_updates_pending 5 "nurseA" exReq rfl⟩

/-- C8 (confirmed): responding twice with the same nurse id and decision
produces exactly the state of responding once (at the later write time):
re-clearing the cleared pending set and re-removing an absent id are
no-ops, not errors. -/
theorem respond_idempotent (now1 now2 : ℤ) (nid : String) (acc : Bool)
    (r : ServiceRequest) :
    handleNurseResponse now2 nid acc (handleNurseResponse now1 nid acc r) =
      handleNurseResponse now2 nid acc r := by
  cases acc with
  | true => rfl
  | false =>
    unfold handleNurseResponse
    simp only [if_neg Bool.false_ne_true]
    by_cases hemp : arrayRemove r.matching.pendingNurses nid = []
    · simp [hemp, arrayRemove_idem, arrayRemove_nil]
    · simp [hemp, arrayRemove_idem]

/-- C7 counterexample: an accepting response from a nurse that never
received an offer still confirms the request and selects that nurse:
after offering only to nurseA, respond("intruder", true) yields status
confirmed with selectedNurseId = intruder, which is not among the offered
ids. -/
theorem accept_from_unoffered_nurse :
    (runOps [Op.offer 0 "nurseA" 90, Op.respond 1 "intruder" true] exReq0).status =
      Status.confirmed ∧
    (runOps [Op.offer 0 "nurseA" 90, Op.respond 1 "intruder" true]
        exReq0).matching.selectedNurseId = some "intruder" ∧
    offeredIds [Op.offer 0 "nurseA" 90, Op.respond 1 "intruder" true] = ["nurseA"] ∧
    "intruder" ∉ (["nurseA"] : List String) := by
  refine ⟨rfl, rfl, rfl, ?_⟩
  simp

/-- C7 (amended): the confirmed-selection invariant holds only for traces
whose accepting responses all come from nurses offered earlier in the
trace: starting from any not-yet-confirmed request, if every accept in the
operation sequence names a previously offered nurse and the final status is
confirmed, then `selectedNurseId` is set and belongs to the offered ids.
(An accept naming an arbitrary nurse does not preserve the invariant, as
the counterexample shows.) -/
theorem confirmed_selected_was_offered (ops : List Op) (r : ServiceRequest)
    (hacc : acceptsFromOffered ops [] = true)
    (hst : r.status ≠ Status.confirmed)
    (hconf : (runOps ops r).status = Status.confirmed) :
    ∃ n, (runOps ops r).matching.selectedNurseId = some n ∧ n ∈ offeredIds ops := by
  rcases runOps_confirmed_selected ops [] r hacc (fun h => absurd h hst) hconf with
    ⟨n, h1, h2⟩
  refine ⟨n, h1, ?_⟩
  simpa using h2

/-- C7 witness: the amended invariant applied to a trace that offers to
nurseA and then receives nurseA's acceptance. -/
theorem confirmed_selected_was_offered_witness :
    acceptsFromOffered [Op.offer 0 "nurseA" 90, Op.respond 1 "nurseA" true] [] = true ∧
    exReq0.status ≠ Status.confirmed ∧
    (runOps [Op.offer 0 "nurseA" 90, Op.respond 1 "nurseA" true] exReq0).status =
      Status.confirmed ∧
    ∃ n, (runOps [Op.offer 0 "nurseA" 90, Op.respond 1 "nurseA" true]
        exReq0).matching.selectedNurseId = some n ∧
      n ∈ offeredIds [Op.offer 0 "nurseA" 90, Op.respond 1 "nurseA" true] :=
  ⟨rfl, by simp [exReq0, exReq], rfl,
    confirmed_selected_was_offered [Op.offer 0 "nurseA" 90, Op.respond 1 "nurseA" true]
      exReq0 rfl (by simp [exReq0, exReq]) rfl⟩

/-- C9 counterexample: a client observing the pending-response request one
minute after its 15-minute deadline does not transition it to declined: the
handler emits no store write at all, so the stored status remains
pending-response; only the component moves to the failed step. -/
theorem expiry_observation_writes_nothing :
    (onRequestSnapshot 960000 exReq exUi).2 = [] ∧
    applyWrites (onRequestSnapshot 960000 exReq exUi).2 exReq = exReq ∧
    exReq.status = Status.pendingResponse ∧
    (onRequestSnapshot 960000 exReq exUi).1.step = Step.failed :=
  ⟨rfl, rfl, rfl, rfl⟩

/-- C9 (amended): when a client observes a request that is still
pending-response after its response deadline, the client-side expiry logic
marks the flow as failed (failed step, loading cleared) but performs no
store write: the stored request keeps its pending-response status instead
of transitioning to declined. -/
theorem snapshot_expiry_effects (now : ℤ) (data : ServiceRequest) (ui : UiState)
    (d : ℤ) (hst : data.status = Status.pendingResponse)
    (hdl : data.matching.responseDeadline = some d) (hlt : d < now) :
    (onRequestSnapshot now data ui).1.step = Step.failed ∧
    (onRequestSnapshot now data ui).1.loading = false ∧
    (onRequestSnapshot now data ui).2 = [] ∧
    applyWrites (onRequestSnapshot now data ui).2 data = data := by
  simp [onRequestSnapshot, hst, hdl, hlt, applyWrites]

/-- C9 witness: the amended observation behaviour at the concrete request
observed at minute 16. -/
theorem snapshot_expiry_effects_witness :
    exReq.status = Status.pendingResponse ∧
    exReq.matching.responseDeadline = some 900000 ∧
    ((900000 : ℤ) < 960000) ∧
    ((onRequestSnapshot 960000 exReq exUi).1.step = Step.failed ∧
     (onRequestSnapshot 960000 exReq exUi).1.loading = false ∧
     (onRequestSnapshot 960000 exReq exUi).2 = [] ∧
     applyWrites (onRequestSnapshot 960000 exReq exUi).2 exReq = exReq) :=
  ⟨rfl, rfl, by norm_num,
    snapshot_expiry_effects 960000 exReq exUi 900000 rfl rfl (by norm_num)⟩

/-- C10 (confirmed): when the matching pass yields no candidates,
`createServiceRequest` still produces a request with status finding-nurses,
an empty candidate snapshot, an empty pending set and a zero nurse-payment
amount; it selects no nurses, and the offer loop sends no offers, leaving
the created document unchanged. -/
theorem create_with_no_candidates (dist : Coord → Coord → ℚ) (now : ℤ)
    (patient : Patient) (input : ServiceRequestInput) (nurses : List Nurse)
    (h : findAvailableNurses dist nurses (some input.patientLocation)
      (patient.preferences.map Preferences.maxDistance)
      (patient.preferences.map Preferences.priceRange)
      (some input.serviceType) = []) :
    (createServiceRequest dist now patient input nurses).2 = [] ∧
    (createServiceRequest dist now patient input nurses).1.status =
      Status.findingNurses ∧
    (createServiceRequest dist now patient input nurses).1.matching.availableNurses
      = [] ∧
    (createServiceRequest dist now patient input nurses).1.matching.pendingNurses
      = [] ∧
    (createServiceRequest dist now patient input
      nurses).1.payment.nursePayment.amount = 0 ∧
    createAndSendOffers dist now patient input nurses =
      ((createServiceRequest dist now patient input nurses).1, []) := by
  unfold createAndSendOffers createServiceRequest
  simp [h]

/-- C10 witness: creating a request when the nurse collection is empty. -/
theorem create_with_no_candidates_witness :
    findAvailableNurses exDist [] (some exInput.patientLocation)
      (exPatient.preferences.map Preferences.maxDistance)
      (exPatient.preferences.map Preferences.priceRange)
      (some exInput.serviceType) = [] ∧
    ((createServiceRequest exDist 0 exPatient exInput []).2 = [] ∧
     (createServiceRequest exDist 0 exPatient exInput []).1.status =
       Status.findingNurses ∧
     (createServiceRequest exDist 0 exPatient exInput []).1.matching.availableNurses
       = [] ∧
     (createServiceRequest exDist 0 exPatient exInput []).1.matching.pendingNurses
       = [] ∧
     (createServiceRequest exDist 0 exPatient
       exInput []).1.payment.nursePayment.amount = 0 ∧
     createAndSendOffers exDist 0 exPatient exInput [] =
       ((createServiceRequest exDist 0 exPatient exInput []).1, [])) :=
  ⟨rfl, create_with_no_candidates exDist 0 exPatient exInput [] rfl⟩

end PatientApp
